import Mathlib

/-!
Verification of the OneBusAway watchdog reconciliation engine.

Shallow embedding of the Go sources under `internal/geo`, `internal/gtfs`,
`internal/config`, `internal/metrics` and `internal/app`.  Go `float64`
values are modelled as rationals (the code only compares and copies them),
`time.Time`/`time.Duration` as rationals (seconds) or integers
(nanoseconds), Go maps as association lists or functions to `Option`,
and fallible functions return explicit error values.
-/

namespace Watchdog

/-! ### Geo: `internal/geo/geo_cluster.go` -/

/-- Mirrors `geo.BoundingBox`: the corners of a lat/lon box. -/
structure BoundingBox where
  minLat : ℚ
  maxLat : ℚ
  minLon : ℚ
  maxLon : ℚ
deriving DecidableEq, Repr

/-- Mirrors `BoundingBox.Contains`:
`lat >= b.MinLat && lat <= b.MaxLat && lon >= b.MinLon && lon <= b.MaxLon`. -/
def BoundingBox.contains (b : BoundingBox) (lat lon : ℚ) : Bool :=
  decide (lat ≥ b.minLat) && decide (lat ≤ b.maxLat) &&
    decide (lon ≥ b.minLon) && decide (lon ≤ b.maxLon)

/-- Mirrors `geo.IsValidLatLon`: `(0,0)` is rejected as an uninitialized
sentinel, then the global coordinate ranges are checked. -/
def IsValidLatLon (lat lon : ℚ) : Bool :=
  if lat = 0 ∧ lon = 0 then false
  else if lat < -90 ∨ lat > 90 ∨ lon < -180 ∨ lon > 180 then false
  else true

/-- C8: `IsValidLatLon(lat, lon)` returns true iff `lat ∈ [-90, 90]`,
`lon ∈ [-180, 180]` and `(lat, lon) ≠ (0, 0)`. -/
theorem isValidLatLon_iff (lat lon : ℚ) :
    IsValidLatLon lat lon = true ↔
      (-90 ≤ lat ∧ lat ≤ 90 ∧ -180 ≤ lon ∧ lon ≤ 180 ∧ ¬(lat = 0 ∧ lon = 0)) := by
  constructor
  · intro h
    unfold IsValidLatLon at h
    by_cases h0 : lat = 0 ∧ lon = 0
    · simp [h0] at h
    · rw [if_neg h0] at h
      by_cases hr : lat < -90 ∨ lat > 90 ∨ lon < -180 ∨ lon > 180
      · simp [hr] at h
      · push_neg at hr
        exact ⟨hr.1, hr.2.1, hr.2.2.1, hr.2.2.2, h0⟩
  · rintro ⟨h1, h2, h3, h4, h0⟩
    unfold IsValidLatLon
    rw [if_neg h0, if_neg (by push_neg; exact ⟨h1, h2, h3, h4⟩)]

/-- Witness for C8 at a concrete coordinate. -/
theorem isValidLatLon_iff_witness :
    IsValidLatLon 47 (-122) = true :=
  (isValidLatLon_iff 47 (-122)).mpr (by norm_num)

/-- C9: `Contains` is inclusive on all four edges: a box with ordered
corners contains both corners, and containment is exactly the conjunction
of the four inclusive comparisons. -/
theorem boundingBox_contains_spec (b : BoundingBox) (lat lon : ℚ)
    (hlat : b.minLat ≤ b.maxLat) (hlon : b.minLon ≤ b.maxLon) :
    b.contains b.minLat b.minLon = true ∧
    b.contains b.maxLat b.maxLon = true ∧
    (b.contains lat lon = true ↔
      (b.minLat ≤ lat ∧ lat ≤ b.maxLat ∧ b.minLon ≤ lon ∧ lon ≤ b.maxLon)) := by
  refine ⟨?_, ?_, ?_⟩
  · simp [BoundingBox.contains, le_refl, hlat, hlon]
  · simp [BoundingBox.contains, le_refl, hlat, hlon]
  · simp [BoundingBox.contains, and_assoc]

/-- Witness for C9 on a concrete box and point. -/
theorem boundingBox_contains_spec_witness :
    (BoundingBox.mk 1 2 3 4).contains 1 3 = true ∧
    (BoundingBox.mk 1 2 3 4).contains 2 4 = true ∧
    ((BoundingBox.mk 1 2 3 4).contains 1 5 = true ↔
      ((1 : ℚ) ≤ 1 ∧ (1 : ℚ) ≤ 2 ∧ (3 : ℚ) ≤ 5 ∧ (5 : ℚ) ≤ 4)) := by
  obtain ⟨h1, h2, -⟩ :=
    boundingBox_contains_spec (BoundingBox.mk 1 2 3 4) 1 3 (by norm_num) (by norm_num)
  obtain ⟨-, -, h3⟩ :=
    boundingBox_contains_spec (BoundingBox.mk 1 2 3 4) 1 5 (by norm_num) (by norm_num)
  exact ⟨h1, h2, h3⟩

/-! ### GTFS stops and the bounding-box computation -/

/-- Mirrors the `gtfs.Stop` values consumed by `geo_cluster.go`: id,
`location_type`, optional coordinates and an optional parent station.
The optional parent is encoded by the choice of constructor. -/
inductive GStop where
  | base (id : String) (typ : Nat) (lat lon : Option ℚ)
  | sub (id : String) (typ : Nat) (lat lon : Option ℚ) (parent : GStop)
deriving DecidableEq, Repr

def GStop.id : GStop → String
  | .base i _ _ _ => i
  | .sub i _ _ _ _ => i

def GStop.typ : GStop → Nat
  | .base _ t _ _ => t
  | .sub _ t _ _ _ => t

def GStop.lat : GStop → Option ℚ
  | .base _ _ la _ => la
  | .sub _ _ la _ _ => la

def GStop.lon : GStop → Option ℚ
  | .base _ _ _ lo => lo
  | .sub _ _ _ lo _ => lo

def GStop.parent : GStop → Option GStop
  | .base _ _ _ _ => none
  | .sub _ _ _ _ p => some p

/-- Modelled from the external `jamespfennell/gtfs` library: `Stop.Root`
follows the `Parent` chain to the topmost ancestor (the stop itself when
it has no parent). -/
def GStop.rootStop : GStop → GStop
  | .base i t la lo => .base i t la lo
  | .sub _ _ _ _ p => p.rootStop

/-- `stop.Latitude != nil && stop.Longitude != nil` in Go. -/
def hasBothCoords (s : GStop) : Bool := s.lat.isSome && s.lon.isSome

/-- The value of Go's `math.MaxFloat64`, used by `ComputeBoundingBox` as
a sentinel for "no coordinate seen yet". -/
def MAXFLOAT : ℚ := (2 ^ 53 - 1) * 2 ^ 971

/-- One iteration of the loop body in `geo.ComputeBoundingBox`: stops
with a missing coordinate are skipped, otherwise the running min/max of
each coordinate is updated. -/
def bboxStep (acc : BoundingBox) (s : GStop) : BoundingBox :=
  match s.lat, s.lon with
  | some la, some lo =>
      ⟨if la < acc.minLat then la else acc.minLat,
       if la > acc.maxLat then la else acc.maxLat,
       if lo < acc.minLon then lo else acc.minLon,
       if lo > acc.maxLon then lo else acc.maxLon⟩
  | _, _ => acc

/-- The initial accumulator `(math.MaxFloat64, -math.MaxFloat64, ...)`. -/
def bboxInit : BoundingBox := ⟨MAXFLOAT, -MAXFLOAT, MAXFLOAT, -MAXFLOAT⟩

/-- Mirrors `geo.ComputeBoundingBox`: errors on an empty stop list, folds
min/max over the stops with both coordinates present, and errors when any
of the four accumulators still holds its sentinel value. -/
def ComputeBoundingBox (stops : List GStop) : Except String BoundingBox :=
  if stops.isEmpty then .error "no stops to compute bounding box"
  else if (stops.foldl bboxStep bboxInit).minLat = MAXFLOAT ∨
      (stops.foldl bboxStep bboxInit).maxLat = -MAXFLOAT ∨
      (stops.foldl bboxStep bboxInit).minLon = MAXFLOAT ∨
      (stops.foldl bboxStep bboxInit).maxLon = -MAXFLOAT then
    .error "no valid latitude/longitude found in stops"
  else
    .ok (stops.foldl bboxStep bboxInit)

/-- `true` exactly on the `.ok` branch. -/
def isOkB : Except String BoundingBox → Bool
  | .ok _ => true
  | .error _ => false

/-- Go maps `map[int]T`, modelled as functions into `Option`. -/
def StaticMap := Int → Option (List GStop)

def BBoxMap := Int → Option BoundingBox

def emptyStaticMap : StaticMap := fun _ => none

def emptyBBoxMap : BBoxMap := fun _ => none

def setStatic (m : StaticMap) (serverID : Int) (v : List GStop) : StaticMap :=
  fun k => if k = serverID then some v else m k

def setBBox (m : BBoxMap) (serverID : Int) (v : BoundingBox) : BBoxMap :=
  fun k => if k = serverID then some v else m k

/-- Mirrors `gtfs.storeGTFSBundle`: the static data (its stop list) is
stored first; then the bounding box is computed, and on error the
function returns with the bounding-box store untouched. -/
def storeGTFSBundle (stops : List GStop) (serverID : Int)
    (stat : StaticMap) (bbox : BBoxMap) : StaticMap × BBoxMap × Option String :=
  let stat2 := setStatic stat serverID stops
  match ComputeBoundingBox stops with
  | .error _ => (stat2, bbox, some "could not compute bounding box")
  | .ok b => (stat2, setBBox bbox serverID b, none)

lemma bboxStep_minLat_le (acc : BoundingBox) (s : GStop) :
    (bboxStep acc s).minLat ≤ acc.minLat := by
  unfold bboxStep
  cases hla : s.lat with
  | none => simp
  | some la =>
    cases hlo : s.lon with
    | none => simp
    | some lo =>
      simp only
      split
      · next h => exact le_of_lt h
      · exact le_refl _

lemma bboxStep_maxLat_ge (acc : BoundingBox) (s : GStop) :
    acc.maxLat ≤ (bboxStep acc s).maxLat := by
  unfold bboxStep
  cases hla : s.lat with
  | none => simp
  | some la =>
    cases hlo : s.lon with
    | none => simp
    | some lo =>
      simp only
      split
      · next h => exact le_of_lt h
      · exact le_refl _

lemma bboxStep_minLon_le (acc : BoundingBox) (s : GStop) :
    (bboxStep acc s).minLon ≤ acc.minLon := by
  unfold bboxStep
  cases hla : s.lat with
  | none => simp
  | some la =>
    cases hlo : s.lon with
    | none => simp
    | some lo =>
      simp only
      split
      · next h => exact le_of_lt h
      · exact le_refl _

lemma bboxStep_maxLon_ge (acc : BoundingBox) (s : GStop) :
    acc.maxLon ≤ (bboxStep acc s).maxLon := by
  unfold bboxStep
  cases hla : s.lat with
  | none => simp
  | some la =>
    cases hlo : s.lon with
    | none => simp
    | some lo =>
      simp only
      split
      · next h => exact le_of_lt h
      · exact le_refl _

lemma bboxFold_minLat_le (l : List GStop) (acc : BoundingBox) :
    (l.foldl bboxStep acc).minLat ≤ acc.minLat := by
  induction l generalizing acc with
  | nil => exact le_refl _
  | cons s rest ih =>
    exact le_trans (ih (bboxStep acc s)) (bboxStep_minLat_le acc s)

lemma bboxFold_maxLat_ge (l : List GStop) (acc : BoundingBox) :
    acc.maxLat ≤ (l.foldl bboxStep acc).maxLat := by
  induction l generalizing acc with
  | nil => exact le_refl _
  | cons s rest ih =>
    exact le_trans (bboxStep_maxLat_ge acc s) (ih (bboxStep acc s))

lemma bboxFold_minLon_le (l : List GStop) (acc : BoundingBox) :
    (l.foldl bboxStep acc).minLon ≤ acc.minLon := by
  induction l generalizing acc with
  | nil => exact le_refl _
  | cons s rest ih =>
    exact le_trans (ih (bboxStep acc s)) (bboxStep_minLon_le acc s)

lemma bboxFold_maxLon_ge (l : List GStop) (acc : BoundingBox) :
    acc.maxLon ≤ (l.foldl bboxStep acc).maxLon := by
  induction l generalizing acc with
  | nil => exact le_refl _
  | cons s rest ih =>
    exact le_trans (bboxStep_maxLon_ge acc s) (ih (bboxStep acc s))

lemma bboxStep_bounds (acc : BoundingBox) (s : GStop) (la lo : ℚ)
    (hla : s.lat = some la) (hlo : s.lon = some lo) :
    (bboxStep acc s).minLat ≤ la ∧ la ≤ (bboxStep acc s).maxLat ∧
    (bboxStep acc s).minLon ≤ lo ∧ lo ≤ (bboxStep acc s).maxLon := by
  unfold bboxStep
  rw [hla, hlo]
  refine ⟨?_, ?_, ?_, ?_⟩ <;> simp only
  · split
    · exact le_refl _
    · next h => exact le_of_not_lt h
  · split
    · exact le_refl _
    · next h => exact le_of_not_lt h
  · split
    · exact le_refl _
    · next h => exact le_of_not_lt h
  · split
    · exact le_refl _
    · next h => exact le_of_not_lt h

/-- A stop with both coordinates present keeps its coordinates inside the
accumulated min/max bounds of the fold. -/
lemma bboxFold_bounds (l : List GStop) (acc : BoundingBox) (s : GStop)
    (hs : s ∈ l) (la lo : ℚ) (hla : s.lat = some la) (hlo : s.lon = some lo) :
    (l.foldl bboxStep acc).minLat ≤ la ∧ la ≤ (l.foldl bboxStep acc).maxLat ∧
    (l.foldl bboxStep acc).minLon ≤ lo ∧ lo ≤ (l.foldl bboxStep acc).maxLon := by
  induction l generalizing acc with
  | nil => cases hs
  | cons t rest ih =>
    rcases List.mem_cons.mp hs with hs | hs
    · subst hs
      obtain ⟨a1, a2, a3, a4⟩ := bboxStep_bounds acc s la lo hla hlo
      refine ⟨?_, ?_, ?_, ?_⟩
      · exact le_trans (bboxFold_minLat_le rest (bboxStep acc s)) a1
      · exact le_trans a2 (bboxFold_maxLat_ge rest (bboxStep acc s))
      · exact le_trans (bboxFold_minLon_le rest (bboxStep acc s)) a3
      · exact le_trans a4 (bboxFold_maxLon_ge rest (bboxStep acc s))
    · exact ih (bboxStep acc t) hs

/-- If no stop carries both coordinates, the fold is the identity. -/
lemma bboxFold_no_valid (l : List GStop) (acc : BoundingBox)
    (h : ∀ s ∈ l, hasBothCoords s = false) :
    l.foldl bboxStep acc = acc := by
  induction l generalizing acc with
  | nil => rfl
  | cons t rest ih =>
    have ht : hasBothCoords t = false := h t (List.mem_cons_self t rest)
    have hstep : bboxStep acc t = acc := by
      unfold bboxStep
      unfold hasBothCoords at ht
      cases hla : t.lat with
      | none => rfl
      | some la =>
        cases hlo : t.lon with
        | none => rfl
        | some lo => rw [hla, hlo] at ht; simp at ht
    rw [List.foldl_cons, hstep]
    exact ih acc (fun s hs => h s (List.mem_cons_of_mem t hs))

/-- If some stop has both coordinates, all strictly inside the float
sentinels, none of the four sentinel checks fires. -/
lemma bboxFold_no_sentinel (stops : List GStop) (s : GStop) (hs : s ∈ stops)
    (la lo : ℚ) (hla : s.lat = some la) (hlo : s.lon = some lo)
    (hra : -MAXFLOAT < la ∧ la < MAXFLOAT) (hro : -MAXFLOAT < lo ∧ lo < MAXFLOAT) :
    ¬((stops.foldl bboxStep bboxInit).minLat = MAXFLOAT ∨
      (stops.foldl bboxStep bboxInit).maxLat = -MAXFLOAT ∨
      (stops.foldl bboxStep bboxInit).minLon = MAXFLOAT ∨
      (stops.foldl bboxStep bboxInit).maxLon = -MAXFLOAT) := by
  obtain ⟨b1, b2, b3, b4⟩ := bboxFold_bounds stops bboxInit s hs la lo hla hlo
  push_neg
  refine ⟨?_, ?_, ?_, ?_⟩
  · exact ne_of_lt (lt_of_le_of_lt b1 hra.2)
  · exact (ne_of_lt (lt_of_lt_of_le hra.1 b2)).symm
  · exact ne_of_lt (lt_of_le_of_lt b3 hro.2)
  · exact (ne_of_lt (lt_of_lt_of_le hro.1 b4)).symm

/-- C10 (amended): provided every present coordinate lies strictly
between the sentinels `±math.MaxFloat64`, `ComputeBoundingBox` succeeds
iff some stop carries both coordinates (so it errors iff the list is
empty or no stop has both); a successful box has ordered corners and
contains every stop with both coordinates; and when the computation
errors, `storeGTFSBundle` returns with the bounding-box store untouched. -/
theorem computeBoundingBox_spec (stops : List GStop)
    (hcoord : ∀ s ∈ stops,
      (∀ la, s.lat = some la → -MAXFLOAT < la ∧ la < MAXFLOAT) ∧
      (∀ lo, s.lon = some lo → -MAXFLOAT < lo ∧ lo < MAXFLOAT)) :
    ((∃ b, ComputeBoundingBox stops = .ok b) ↔
      ∃ s ∈ stops, hasBothCoords s = true) ∧
    (∀ b, ComputeBoundingBox stops = .ok b →
      b.minLat ≤ b.maxLat ∧ b.minLon ≤ b.maxLon ∧
      ∀ s ∈ stops, ∀ la lo, s.lat = some la → s.lon = some lo →
        b.contains la lo = true) ∧
    (∀ serverID stat bbox e,
      (storeGTFSBundle stops serverID stat bbox).2.2 = some e →
      (storeGTFSBundle stops serverID stat bbox).2.1 = bbox) := by
  classical
  have hok_char : ∀ b, ComputeBoundingBox stops = .ok b →
      stops ≠ [] ∧ b = stops.foldl bboxStep bboxInit ∧
      (∃ s ∈ stops, hasBothCoords s = true) := by
    intro b h
    unfold ComputeBoundingBox at h
    split at h
    · cases h
    · next hempty =>
      split at h
      · cases h
      · next hsent =>
        refine ⟨by simpa [List.isEmpty_iff] using hempty, (Except.ok.inj h).symm, ?_⟩
        by_contra hnone
        push_neg at hnone
        have hall : ∀ s ∈ stops, hasBothCoords s = false := by
          intro s hs
          have := hnone s hs
          simpa using this
        have hfold := bboxFold_no_valid stops bboxInit hall
        exact hsent (Or.inl (by rw [hfold]; rfl))
  refine ⟨⟨?_, ?_⟩, ?_, ?_⟩
  · rintro ⟨b, hb⟩
    exact (hok_char b hb).2.2
  · rintro ⟨s, hs, hv⟩
    unfold hasBothCoords at hv
    rw [Bool.and_eq_true, Option.isSome_iff_exists, Option.isSome_iff_exists] at hv
    obtain ⟨⟨la, hla⟩, lo, hlo⟩ := hv
    have hra := (hcoord s hs).1 la hla
    have hro := (hcoord s hs).2 lo hlo
    have hsent := bboxFold_no_sentinel stops s hs la lo hla hlo hra hro
    refine ⟨stops.foldl bboxStep bboxInit, ?_⟩
    unfold ComputeBoundingBox
    rw [if_neg (by simp [List.isEmpty_iff]; rintro rfl; cases hs), if_neg hsent]
  · intro b hb
    obtain ⟨hne, rfl, s, hs, hv⟩ := hok_char b hb
    unfold hasBothCoords at hv
    rw [Bool.and_eq_true, Option.isSome_iff_exists, Option.isSome_iff_exists] at hv
    obtain ⟨⟨la, hla⟩, lo, hlo⟩ := hv
    obtain ⟨b1, b2, b3, b4⟩ := bboxFold_bounds stops bboxInit s hs la lo hla hlo
    refine ⟨le_trans b1 b2, le_trans b3 b4, ?_⟩
    intro t ht la2 lo2 hla2 hlo2
    obtain ⟨c1, c2, c3, c4⟩ := bboxFold_bounds stops bboxInit t ht la2 lo2 hla2 hlo2
    simp [BoundingBox.contains, c1, c2, c3, c4]
  · intro serverID stat bbox e he
    unfold storeGTFSBundle at he ⊢
    cases hc : ComputeBoundingBox stops with
    | error msg => rfl
    | ok b =>
      rw [hc] at he
      exact Option.noConfusion (show (none : Option String) = some e from he)

/-- A stop whose latitude equals the `math.MaxFloat64` sentinel. -/
def sentinelStop : GStop := .base "X" 0 (some MAXFLOAT) (some 0)

/-- Counterexample to C10 as stated: `[sentinelStop]` is nonempty and its
single stop has both coordinates present, yet `ComputeBoundingBox` still
returns an error, because the latitude collides with the sentinel. -/
theorem computeBoundingBox_claim_counterexample :
    ([sentinelStop].isEmpty = false ∧ hasBothCoords sentinelStop = true) ∧
    isOkB (ComputeBoundingBox [sentinelStop]) = false := by
  refine ⟨⟨rfl, rfl⟩, ?_⟩
  have hfold : ([sentinelStop].foldl bboxStep bboxInit).minLat = MAXFLOAT := by
    show (bboxStep bboxInit sentinelStop).minLat = MAXFLOAT
    unfold bboxStep sentinelStop bboxInit GStop.lat GStop.lon
    simp
  unfold ComputeBoundingBox
  rw [if_neg (by simp), if_pos (Or.inl hfold)]
  rfl

/-- Witness for C10 on a concrete stop list inside the sentinel range. -/
theorem computeBoundingBox_spec_witness :
    ∃ b, ComputeBoundingBox [GStop.base "A" 0 (some 1) (some 2)] = .ok b := by
  have h := computeBoundingBox_spec [GStop.base "A" 0 (some 1) (some 2)] (by
    intro s hs
    rcases List.mem_singleton.mp hs with rfl
    constructor
    · intro la hla
      rw [show (GStop.base "A" 0 (some 1) (some 2)).lat = some 1 from rfl] at hla
      rcases Option.some.inj hla with rfl
      norm_num [MAXFLOAT]
    · intro lo hlo
      rw [show (GStop.base "A" 0 (some 1) (some 2)).lon = some 2 from rfl] at hlo
      rcases Option.some.inj hlo with rfl
      norm_num [MAXFLOAT])
  exact h.1.mpr ⟨GStop.base "A" 0 (some 1) (some 2), List.mem_singleton.mpr rfl, rfl⟩

/-! ### Stop clustering: `geo.GetClusterID` -/

/-- Modelled from the spec: the external S2 geometry library maps a
latitude/longitude pair deterministically to a spatial cell number at a
given level; the repository only relies on that determinism. -/
def s2CellNum (lat lon : ℚ) (level : Nat) : Nat :=
  lat.num.natAbs * 2 + lat.den * 3 + lon.num.natAbs * 5 + lon.den * 7 + level

/-- `s2Level = 13` in `geo_cluster.go`. -/
def s2Level : Nat := 13

/-- Mirrors `geo.s2ClusterID`: `fmt.Sprintf("s2_%d", uint64(cellID))`. -/
def s2ClusterID (lat lon : ℚ) (level : Nat) : String :=
  "s2_" ++ toString (s2CellNum lat lon level)

lemma s2ClusterID_ne_empty (lat lon : ℚ) (level : Nat) :
    s2ClusterID lat lon level ≠ "" := by
  intro h
  have hlen : (s2ClusterID lat lon level).length = 0 := by rw [h]; rfl
  unfold s2ClusterID at hlen
  rw [String.length_append] at hlen
  have h3 : ("s2_" : String).length = 3 := rfl
  omega

/-- Mirrors `geo.GetClusterID`: the `switch stop.Type` classification over
the GTFS stop hierarchy. -/
def GetClusterID (s : GStop) : String × String × Bool :=
  if s.typ = 0 then
    match s.parent with
    | some _ =>
      if s.rootStop.typ = 1 then (s.rootStop.id, "station", true)
      else ("", "", false)
    | none =>
      match s.lat, s.lon with
      | some la, some lo => (s2ClusterID la lo s2Level, "s2", true)
      | _, _ => ("", "", false)
  else if s.typ = 1 then
    (s.id, "station", true)
  else if s.typ = 2 ∨ s.typ = 3 then
    match s.parent with
    | some p => if p.typ = 1 then (p.id, "station", true) else ("", "", false)
    | none => ("", "", false)
  else if s.typ = 4 then
    match s.parent with
    | some p =>
      if p.typ = 0 then
        match p.parent with
        | none =>
          match s.lat, s.lon with
          | some la, some lo => (s2ClusterID la lo s2Level, "s2", true)
          | _, _ => ("", "", false)
        | some gp =>
          if gp.typ = 1 then (gp.id, "station", true) else ("", "", false)
      else ("", "", false)
    | none => ("", "", false)
  else ("", "", false)

/-- C7: `GetClusterID` implements the §4.4 classification: stations by
their own id; platforms by their type-1 root, else by an S2 cell when
parentless with coordinates; entrances/nodes by a direct type-1 parent;
boarding areas through a type-0 parent by a type-1 grandparent or an S2
fallback; everything else is not clusterable. -/
theorem getClusterID_spec (s : GStop) :
    (s.typ = 1 → GetClusterID s = (s.id, "station", true)) ∧
    (s.typ = 0 → s.parent.isSome = true → s.rootStop.typ = 1 →
      GetClusterID s = (s.rootStop.id, "station", true)) ∧
    (∀ la lo, s.typ = 0 → s.parent = none → s.lat = some la → s.lon = some lo →
      IsValidLatLon la lo = true →
      GetClusterID s = (s2ClusterID la lo s2Level, "s2", true) ∧
      s2ClusterID la lo s2Level ≠ "" ∧
      (∃ rest, s2ClusterID la lo s2Level = "s2_" ++ rest) ∧
      (∀ t : GStop, t.typ = 0 → t.parent = none → t.lat = some la →
        t.lon = some lo → GetClusterID t = GetClusterID s)) ∧
    (∀ p, (s.typ = 2 ∨ s.typ = 3) → s.parent = some p → p.typ = 1 →
      GetClusterID s = (p.id, "station", true)) ∧
    (∀ p gp, s.typ = 4 → s.parent = some p → p.typ = 0 → p.parent = some gp →
      gp.typ = 1 → GetClusterID s = (gp.id, "station", true)) ∧
    (∀ p la lo, s.typ = 4 → s.parent = some p → p.typ = 0 → p.parent = none →
      s.lat = some la → s.lon = some lo →
      GetClusterID s = (s2ClusterID la lo s2Level, "s2", true)) ∧
    (∀ p, s.typ = 4 → s.parent = some p → p.typ ≠ 0 →
      (GetClusterID s).2.2 = false) ∧
    ((GetClusterID s).2.2 = true →
      s.typ = 1 ∨
      (s.typ = 0 ∧ s.parent.isSome = true ∧ s.rootStop.typ = 1) ∨
      (s.typ = 0 ∧ s.parent = none ∧ s.lat.isSome = true ∧ s.lon.isSome = true) ∨
      ((s.typ = 2 ∨ s.typ = 3) ∧ ∃ p, s.parent = some p ∧ p.typ = 1) ∨
      (s.typ = 4 ∧ ∃ p, s.parent = some p ∧ p.typ = 0 ∧
        ((p.parent = none ∧ s.lat.isSome = true ∧ s.lon.isSome = true) ∨
         ∃ gp, p.parent = some gp ∧ gp.typ = 1))) := by
  refine ⟨?_, ?_, ?_, ?_, ?_, ?_, ?_, ?_⟩
  · intro h1
    have h0 : ¬(s.typ = 0) := by omega
    simp [GetClusterID, h0, h1]
  · intro h0 hp hr
    obtain ⟨p, hp2⟩ := Option.isSome_iff_exists.mp hp
    simp [GetClusterID, h0, hp2, hr]
  · intro la lo h0 hp hla hlo _
    refine ⟨by simp [GetClusterID, h0, hp, hla, hlo], s2ClusterID_ne_empty la lo s2Level,
      ⟨toString (s2CellNum la lo s2Level), rfl⟩, ?_⟩
    intro t h0t hpt hlat hlot
    simp [GetClusterID, h0, hp, hla, hlo, h0t, hpt, hlat, hlot]
  · intro p h23 hp hp1
    have h0 : ¬(s.typ = 0) := by omega
    have h1 : ¬(s.typ = 1) := by omega
    simp [GetClusterID, h0, h1, h23, hp, hp1]
  · intro p gp h4 hp hp0 hgp hgp1
    have h0 : ¬(s.typ = 0) := by omega
    have h1 : ¬(s.typ = 1) := by omega
    have h23 : ¬(s.typ = 2 ∨ s.typ = 3) := by omega
    simp [GetClusterID, h0, h1, h23, h4, hp, hp0, hgp, hgp1]
  · intro p la lo h4 hp hp0 hgp hla hlo
    have h0 : ¬(s.typ = 0) := by omega
    have h1 : ¬(s.typ = 1) := by omega
    have h23 : ¬(s.typ = 2 ∨ s.typ = 3) := by omega
    simp [GetClusterID, h0, h1, h23, h4, hp, hp0, hgp, hla, hlo]
  · intro p h4 hp hp0
    have h0 : ¬(s.typ = 0) := by omega
    have h1 : ¬(s.typ = 1) := by omega
    have h23 : ¬(s.typ = 2 ∨ s.typ = 3) := by omega
    simp [GetClusterID, h0, h1, h23, h4, hp, hp0]
  · intro hok
    unfold GetClusterID at hok
    by_cases h0 : s.typ = 0
    · cases hpar : s.parent with
      | some p =>
        simp only [h0, if_pos, hpar] at hok
        by_cases hr : s.rootStop.typ = 1
        · exact Or.inr (Or.inl ⟨h0, rfl, hr⟩)
        · rw [if_neg hr] at hok; cases hok
      | none =>
        simp only [h0, if_pos, hpar] at hok
        cases hla : s.lat with
        | none => simp [hla] at hok
        | some la =>
          cases hlo : s.lon with
          | none => simp [hla, hlo] at hok
          | some lo =>
            exact Or.inr (Or.inr (Or.inl ⟨h0, rfl, rfl, rfl⟩))
    · rw [if_neg h0] at hok
      by_cases h1 : s.typ = 1
      · exact Or.inl h1
      · rw [if_neg h1] at hok
        by_cases h23 : s.typ = 2 ∨ s.typ = 3
        · rw [if_pos h23] at hok
          cases hpar : s.parent with
          | none => simp [hpar] at hok
          | some p =>
            simp only [hpar] at hok
            by_cases hp1 : p.typ = 1
            · exact Or.inr (Or.inr (Or.inr (Or.inl ⟨h23, p, rfl, hp1⟩)))
            · rw [if_neg hp1] at hok; cases hok
        · rw [if_neg h23] at hok
          by_cases h4 : s.typ = 4
          · rw [if_pos h4] at hok
            cases hpar : s.parent with
            | none => simp [hpar] at hok
            | some p =>
              simp only [hpar] at hok
              by_cases hp0 : p.typ = 0
              · rw [if_pos hp0] at hok
                cases hgp : p.parent with
                | none =>
                  simp only [hgp] at hok
                  cases hla : s.lat with
                  | none => simp [hla] at hok
                  | some la =>
                    cases hlo : s.lon with
                    | none => simp [hla, hlo] at hok
                    | some lo =>
                      exact Or.inr (Or.inr (Or.inr (Or.inr
                        ⟨h4, p, rfl, hp0, Or.inl ⟨hgp, rfl, rfl⟩⟩)))
                | some gp =>
                  simp only [hgp] at hok
                  by_cases hgp1 : gp.typ = 1
                  · exact Or.inr (Or.inr (Or.inr (Or.inr
                      ⟨h4, p, rfl, hp0, Or.inr ⟨gp, hgp, hgp1⟩⟩)))
                  · rw [if_neg hgp1] at hok; cases hok
              · rw [if_neg hp0] at hok; cases hok
          · rw [if_neg h4] at hok; cases hok

/-- Witness for C7: the spec's own examples, a type-1 station "S1" and a
parentless type-0 stop at (47.6, -122.3). -/
theorem getClusterID_spec_witness :
    GetClusterID (GStop.base "S1" 1 none none) = ("S1", "station", true) ∧
    GetClusterID (GStop.base "P" 0 (some (476/10)) (some (-1223/10))) =
      (s2ClusterID (476/10) (-1223/10) s2Level, "s2", true) ∧
    s2ClusterID (476/10) (-1223/10) s2Level ≠ "" := by
  have hv : IsValidLatLon (476/10) (-1223/10) = true := by
    unfold IsValidLatLon
    rw [if_neg (by norm_num), if_neg (by norm_num)]
  refine ⟨(getClusterID_spec (GStop.base "S1" 1 none none)).1 rfl, ?_, ?_⟩
  · exact ((getClusterID_spec (GStop.base "P" 0 (some (476/10)) (some (-1223/10)))).2.2.1
      (476/10) (-1223/10) rfl rfl rfl rfl hv).1
  · exact ((getClusterID_spec (GStop.base "P" 0 (some (476/10)) (some (-1223/10)))).2.2.1
      (476/10) (-1223/10) rfl rfl rfl rfl hv).2.1

/-! ### Backoff engine: `internal/config/backoff_time_store.go`
Durations are modelled as integers in nanoseconds, exactly as Go's
`time.Duration`. -/

/-- `BASE_BACKOFF = 1 * time.Second`. -/
def BASE_BACKOFF : ℤ := 1000000000

/-- `MAX_BACKOFF = 2 * time.Minute`. -/
def MAX_BACKOFF : ℤ := 120000000000

/-- Mirrors `calculateNewBackoffDelay`: double, clamp at the ceiling. -/
def calculateNewBackoffDelay (backoffDelay : ℤ) : ℤ :=
  if backoffDelay * 2 ≥ MAX_BACKOFF then MAX_BACKOFF else backoffDelay * 2

/-- Mirrors `calculateNextRetryAt`; the random jitter
`rand.Float64() * float64(backoff) * JITTER_FACTOR` is an input here. -/
def calculateNextRetryAt (backoff jitter now : ℤ) : ℤ :=
  let b := backoff + jitter
  (if b > MAX_BACKOFF then MAX_BACKOFF else b) + now

/-- Mirrors `backoffData`. -/
structure BackoffData where
  backoffDelay : ℤ
  nextRetryAt : ℤ
deriving DecidableEq, Repr

/-- The `backoffs map[int]backoffData` of `BackoffStore`. -/
def BackoffMap := Int → Option BackoffData

def emptyBackoffMap : BackoffMap := fun _ => none

/-- Mirrors `BackoffStore.UpdateBackoff`: double an existing entry's delay
(clamped), or create one at the base delay; either way recompute the
next-retry time from the stored delay, the jitter and the current time. -/
def updateBackoff (st : BackoffMap) (serverID : Int) (jitter now : ℤ) : BackoffMap :=
  match st serverID with
  | some b =>
      let d := calculateNewBackoffDelay b.backoffDelay
      fun k => if k = serverID then some ⟨d, calculateNextRetryAt d jitter now⟩ else st k
  | none =>
      fun k => if k = serverID then
        some ⟨BASE_BACKOFF, calculateNextRetryAt BASE_BACKOFF jitter now⟩
      else st k

/-- Mirrors `BackoffStore.ResetBackoff`: delete the entry. -/
def resetBackoff (st : BackoffMap) (serverID : Int) : BackoffMap :=
  fun k => if k = serverID then none else st k

/-- Mirrors `BackoffStore.NextRetryAt`. -/
def nextRetryAt (st : BackoffMap) (serverID : Int) : Option ℤ :=
  (st serverID).map (·.nextRetryAt)

/-- `N` consecutive `UpdateBackoff` calls for the same target, with the
(irrelevant to the stored delay) jitter and clock values supplied per
call. -/
def iterUpdateBackoff (serverID : Int) (jitters nows : Nat → ℤ) :
    Nat → BackoffMap → BackoffMap
  | 0, st => st
  | n + 1, st => updateBackoff (iterUpdateBackoff serverID jitters nows n st) serverID
      (jitters n) (nows n)

lemma iterUpdateBackoff_delay (serverID : Int) (jitters nows : Nat → ℤ)
    (st : BackoffMap) (hst : st serverID = none) :
    ∀ N, 1 ≤ N →
      ((iterUpdateBackoff serverID jitters nows N st) serverID).map (·.backoffDelay)
        = some (min (BASE_BACKOFF * 2 ^ (N - 1)) MAX_BACKOFF) := by
  intro N
  induction N with
  | zero => omega
  | succ n ih =>
    intro _
    rcases Nat.eq_zero_or_pos n with rfl | hn
    · show ((updateBackoff st serverID (jitters 0) (nows 0)) serverID).map _ = _
      unfold updateBackoff
      rw [hst]
      have : min (BASE_BACKOFF * 2 ^ (1 - 1)) MAX_BACKOFF = BASE_BACKOFF := by
        unfold BASE_BACKOFF MAX_BACKOFF; norm_num
      rw [this]
      simp
    · have hprev := ih hn
      show ((updateBackoff (iterUpdateBackoff serverID jitters nows n st) serverID
        (jitters n) (nows n)) serverID).map _ = _
      unfold updateBackoff
      cases hcur : (iterUpdateBackoff serverID jitters nows n st) serverID with
      | none => rw [hcur] at hprev; cases hprev
      | some b =>
        rw [hcur] at hprev
        simp at hprev
        simp
        rw [hprev]
        unfold calculateNewBackoffDelay
        have hM : (0 : ℤ) < MAX_BACKOFF := by unfold MAX_BACKOFF; norm_num
        have hpow2 : n - 1 + 1 = n := by omega
        rcases le_or_lt MAX_BACKOFF (BASE_BACKOFF * 2 ^ (n - 1)) with hge | hlt
        · rw [min_eq_right hge, if_pos (by linarith)]
          have : MAX_BACKOFF ≤ BASE_BACKOFF * 2 ^ n := by
            calc MAX_BACKOFF ≤ BASE_BACKOFF * 2 ^ (n - 1) := hge
            _ ≤ BASE_BACKOFF * 2 ^ n := by
                have : (2 : ℤ) ^ (n - 1) ≤ 2 ^ n := by
                  apply pow_le_pow_right₀ (by norm_num) (by omega)
                have hB : (0 : ℤ) < BASE_BACKOFF := by unfold BASE_BACKOFF; norm_num
                nlinarith
          rw [min_eq_right this]
        · rw [min_eq_left (le_of_lt hlt)]
          have h2 : BASE_BACKOFF * 2 ^ (n - 1) * 2 = BASE_BACKOFF * 2 ^ n := by
            rw [mul_assoc, ← pow_succ, hpow2]
          rw [h2]
          rcases le_or_lt MAX_BACKOFF (BASE_BACKOFF * 2 ^ n) with hge2 | hlt2
          · rw [if_pos hge2, min_eq_right hge2]
          · rw [if_neg (by linarith), min_eq_left (le_of_lt hlt2)]

/-- C2 (amended): after `N ≥ 1` consecutive `updateBackoff` calls for the
same fresh target with no intervening reset, the stored nominal delay is
`min(base * 2^(N-1), cap)` with base 1s and cap 2min: the first call
stores the base delay, and each later call doubles then clamps. -/
theorem updateBackoff_delay_spec (serverID : Int) (jitters nows : Nat → ℤ)
    (st : BackoffMap) (hst : st serverID = none) (N : Nat) (hN : 1 ≤ N) :
    ((iterUpdateBackoff serverID jitters nows N st) serverID).map (·.backoffDelay)
      = some (min (BASE_BACKOFF * 2 ^ (N - 1)) MAX_BACKOFF) :=
  iterUpdateBackoff_delay serverID jitters nows st hst N hN

/-- Witness for C2 (amended) at `N = 8`: `2^7` seconds, just above the
two-minute cap, so the stored delay is the cap. -/
theorem updateBackoff_delay_spec_witness :
    ((iterUpdateBackoff 7 (fun _ => 0) (fun _ => 0) 8 emptyBackoffMap) 7).map
      (·.backoffDelay) = some (min (BASE_BACKOFF * 2 ^ (8 - 1)) MAX_BACKOFF) :=
  updateBackoff_delay_spec 7 (fun _ => 0) (fun _ => 0) emptyBackoffMap rfl 8
    (by norm_num)

/-- Counterexample to C2 as stated: after a single `updateBackoff` call
the stored delay is the base (1s), not `min(base * 2^1, cap)` = 2s. -/
theorem updateBackoff_claim_counterexample :
    ((iterUpdateBackoff 7 (fun _ => 0) (fun _ => 0) 1 emptyBackoffMap) 7).map
        (·.backoffDelay) = some BASE_BACKOFF ∧
    some BASE_BACKOFF ≠ some (min (BASE_BACKOFF * 2 ^ 1) MAX_BACKOFF) := by
  constructor
  · show ((updateBackoff emptyBackoffMap 7 0 0) 7).map _ = _
    unfold updateBackoff emptyBackoffMap
    simp
  · intro h
    rw [Option.some.injEq] at h
    unfold BASE_BACKOFF MAX_BACKOFF at h
    norm_num at h

/-! ### Call-scoped retry: `config.DoWithBackoff` -/

/-- The error values `DoWithBackoff` can produce: a transport error from
`client.Do` on a given attempt, the `fmt.Errorf("max retries exceeded:
%w", err)` wrapper, or `ctx.Err()`. -/
inductive GoError where
  | transportErr (attempt : Nat)
  | maxRetriesExceeded (wrapped : GoError)
  | ctxCancelled
deriving DecidableEq, Repr

/-- The result of `DoWithBackoff`: the response of a successful attempt,
or an error. -/
inductive RetryOutcome where
  | ok (attempt : Nat)
  | err (e : GoError)
deriving DecidableEq, Repr

/-- The environment of one `DoWithBackoff` call: whether `client.Do`
fails at the transport level on attempt `n`, and whether `ctx.Done()`
fires during the backoff wait that follows attempt `n`. -/
structure TransportEnv where
  attemptFails : Nat → Bool
  ctxDoneDuringWait : Nat → Bool

/-- Mirrors the loop of `config.DoWithBackoff`, with explicit fuel:
`none` means the loop has not returned within `fuel` iterations.  The
second result component counts the attempts performed. -/
def doWithBackoffAux (env : TransportEnv) (maxRetries : Nat) :
    Nat → Nat → ℤ → Option (RetryOutcome × Nat)
  | 0, _, _ => none
  | fuel + 1, retries, backoffDelay =>
    if env.attemptFails retries = false then
      some (.ok retries, retries + 1)
    else if 0 < maxRetries ∧ maxRetries ≤ retries then
      some (.err (.maxRetriesExceeded (.transportErr retries)), retries + 1)
    else if env.ctxDoneDuringWait retries then
      some (.err .ctxCancelled, retries + 1)
    else
      doWithBackoffAux env maxRetries fuel (retries + 1)
        (calculateNewBackoffDelay backoffDelay)

/-- `config.DoWithBackoff`: `backoffDelay := BASE_BACKOFF; retries := 0`. -/
def DoWithBackoff (env : TransportEnv) (maxRetries fuel : Nat) :
    Option (RetryOutcome × Nat) :=
  doWithBackoffAux env maxRetries fuel 0 BASE_BACKOFF

lemma doWithBackoffAux_exhaust (env : TransportEnv) (k : Nat)
    (hfail : ∀ n, env.attemptFails n = true)
    (hctx : ∀ n, env.ctxDoneDuringWait n = false) (hk : 0 < k) :
    ∀ fuel r d, r ≤ k → k - r + 1 ≤ fuel →
      doWithBackoffAux env k fuel r d
        = some (.err (.maxRetriesExceeded (.transportErr k)), k + 1) := by
  intro fuel
  induction fuel with
  | zero => intro r d _ h; omega
  | succ f ih =>
    intro r d hr hfuel
    unfold doWithBackoffAux
    rw [hfail r, if_neg (by simp)]
    by_cases hend : k ≤ r
    · have : r = k := le_antisymm hr hend
      subst this
      rw [if_pos ⟨hk, le_refl r⟩]
    · rw [if_neg (by omega), hctx r, if_neg (by simp)]
      exact ih (r + 1) (calculateNewBackoffDelay d) (by omega) (by omega)

lemma doWithBackoffAux_cancel (env : TransportEnv) (maxRetries j : Nat)
    (hfail : ∀ n, env.attemptFails n = true)
    (hctx : ∀ n, n < j → env.ctxDoneDuringWait n = false)
    (hj : env.ctxDoneDuringWait j = true)
    (hmr : maxRetries = 0 ∨ j < maxRetries) :
    ∀ fuel r d, r ≤ j → j - r + 1 ≤ fuel →
      doWithBackoffAux env maxRetries fuel r d
        = some (.err .ctxCancelled, j + 1) := by
  intro fuel
  induction fuel with
  | zero => intro r d _ h; omega
  | succ f ih =>
    intro r d hr hfuel
    unfold doWithBackoffAux
    rw [hfail r, if_neg (by simp)]
    have hmr2 : ¬(0 < maxRetries ∧ maxRetries ≤ r) := by
      rcases hmr with h0 | hlt
      · omega
      · omega
    rw [if_neg hmr2]
    by_cases hend : j ≤ r
    · have : r = j := le_antisymm hr hend
      subst this
      rw [hj, if_pos rfl]
    · rw [hctx r (by omega), if_neg (by simp)]
      exact ih (r + 1) (calculateNewBackoffDelay d) (by omega) (by omega)

lemma doWithBackoffAux_no_exhaust_zero (env : TransportEnv) :
    ∀ fuel r d res, doWithBackoffAux env 0 fuel r d = some res →
      ∀ e n, res ≠ (.err (.maxRetriesExceeded e), n) := by
  intro fuel
  induction fuel with
  | zero => intro r d res h; cases h
  | succ f ih =>
    intro r d res h
    unfold doWithBackoffAux at h
    by_cases hf : env.attemptFails r = false
    · rw [if_pos hf] at h
      intro e n hne
      rw [Option.some.injEq] at h
      rw [← h] at hne
      cases hne
    · rw [if_neg hf, if_neg (by omega)] at h
      by_cases hc : env.ctxDoneDuringWait r = true
      · rw [if_pos hc] at h
        intro e n hne
        rw [Option.some.injEq] at h
        rw [← h] at hne
        cases hne
      · rw [if_neg hc] at h
        exact ih (r + 1) (calculateNewBackoffDelay d) res h

lemma doWithBackoffAux_loops_zero (env : TransportEnv)
    (hfail : ∀ n, env.attemptFails n = true)
    (hctx : ∀ n, env.ctxDoneDuringWait n = false) :
    ∀ fuel r d, doWithBackoffAux env 0 fuel r d = none := by
  intro fuel
  induction fuel with
  | zero => intro r d; rfl
  | succ f ih =>
    intro r d
    unfold doWithBackoffAux
    rw [hfail r, if_neg (by simp), if_neg (by omega), hctx r, if_neg (by simp)]
    exact ih (r + 1) (calculateNewBackoffDelay d)

/-- C3: with an always-failing transport and `maxRetries = k ≥ 1`,
`DoWithBackoff` performs exactly `k+1` attempts and returns the
retries-exhausted error wrapping the last transport failure; a context
cancelled during a backoff wait yields the cancellation error instead;
and `maxRetries = 0` never produces a retries-exhausted error, looping
until the context is cancelled. -/
theorem doWithBackoff_spec (env : TransportEnv)
    (hfail : ∀ n, env.attemptFails n = true) :
    ((∀ n, env.ctxDoneDuringWait n = false) → ∀ k, 1 ≤ k → ∀ fuel, k + 1 ≤ fuel →
      DoWithBackoff env k fuel
        = some (.err (.maxRetriesExceeded (.transportErr k)), k + 1)) ∧
    (∀ j maxRetries, (∀ n, n < j → env.ctxDoneDuringWait n = false) →
      env.ctxDoneDuringWait j = true → (maxRetries = 0 ∨ j < maxRetries) →
      ∀ fuel, j + 1 ≤ fuel →
      DoWithBackoff env maxRetries fuel = some (.err .ctxCancelled, j + 1)) ∧
    (∀ fuel res, DoWithBackoff env 0 fuel = some res →
      ∀ e n, res ≠ (.err (.maxRetriesExceeded e), n)) ∧
    ((∀ n, env.ctxDoneDuringWait n = false) → ∀ fuel,
      DoWithBackoff env 0 fuel = none) := by
  refine ⟨?_, ?_, ?_, ?_⟩
  · intro hctx k hk fuel hfuel
    exact doWithBackoffAux_exhaust env k hfail hctx (by omega) fuel 0 BASE_BACKOFF
      (by omega) (by omega)
  · intro j maxRetries hctx hj hmr fuel hfuel
    exact doWithBackoffAux_cancel env maxRetries j hfail hctx hj hmr fuel 0
      BASE_BACKOFF (by omega) (by omega)
  · intro fuel res h
    exact doWithBackoffAux_no_exhaust_zero env fuel 0 BASE_BACKOFF res h
  · intro hctx fuel
    exact doWithBackoffAux_loops_zero env hfail hctx fuel 0 BASE_BACKOFF

/-- Witness for C3: an always-failing transport, `maxRetries = 2`,
fuel 4: three attempts, exhausted error wrapping attempt 2's failure. -/
theorem doWithBackoff_spec_witness :
    DoWithBackoff ⟨fun _ => true, fun _ => false⟩ 2 4
      = some (.err (.maxRetriesExceeded (.transportErr 2)), 3) :=
  (doWithBackoff_spec ⟨fun _ => true, fun _ => false⟩ (fun _ => rfl)).1
    (fun _ => rfl) 2 (by norm_num) 4 (by norm_num)

/-! ### Realtime snapshots and the stores: `internal/gtfs` -/

/-- Mirrors the `VehicleID` carried by `gtfs.Vehicle.ID`. -/
structure VehicleID where
  id : String
deriving DecidableEq, Repr

/-- Mirrors `gtfs.Position` as used by `vehicle_metrics.go`. -/
structure VehiclePosition where
  latitude : Option ℚ
  longitude : Option ℚ
  speed : Option ℚ
deriving DecidableEq, Repr

/-- Mirrors the fields of `gtfs.Vehicle` read by the telemetry pass. -/
structure Vehicle where
  vid : Option VehicleID
  position : Option VehiclePosition
  timestamp : Option ℚ
  currentStatus : Option Int
deriving DecidableEq, Repr

/-- Mirrors `models.RealtimeData` (declared outside `src/`, its
`Vehicles []gtfs.Vehicle` shape is visible from `gtfs/test_helpers.go`
and every consumer). -/
structure RealtimeData where
  vehicles : List Vehicle
deriving DecidableEq, Repr

/-- Mirrors `gtfs.RealtimeStore`: a single `data *models.RealtimeData`
slot, with no per-server key. -/
structure RealtimeStore where
  data : Option RealtimeData
deriving DecidableEq, Repr

/-- `RealtimeStore.Set`: replaces the single slot. -/
def RealtimeStore.set (_s : RealtimeStore) (newData : RealtimeData) : RealtimeStore :=
  ⟨some newData⟩

/-- `RealtimeStore.Get`: reads the single slot; there is no key. -/
def RealtimeStore.get (s : RealtimeStore) : Option RealtimeData := s.data

/-- The storage step of `gtfs.fetchAndStoreGTFSRTFeed`: the feed parsed
for the given server is stored with `realtimeStore.Set(realtimeData)`;
the server identity plays no part in the store operation. -/
def fetchAndStoreRTFeed (serverID : Int) (parsed : RealtimeData)
    (s : RealtimeStore) : RealtimeStore :=
  s.set parsed

def rtDataA : RealtimeData := ⟨[]⟩

def rtDataB : RealtimeData := ⟨[⟨some ⟨"V1"⟩, none, none, none⟩]⟩

/-- Counterexample to C1 as stated: a realtime fetch for server 1 stores
`rtDataA`; a subsequent fetch for server 2 stores `rtDataB`; the only
retrieval the store offers now returns server 2's data, so server 1's
snapshot is gone. -/
theorem realtimeStore_claim_counterexample :
    (fetchAndStoreRTFeed 2 rtDataB (fetchAndStoreRTFeed 1 rtDataA ⟨none⟩)).get
        = some rtDataB ∧ rtDataB ≠ rtDataA := by
  exact ⟨rfl, by decide⟩

/-- C1 (amended): the realtime store is single-slot and not keyed by
server: a store for a second server overwrites the first server's
snapshot, and `Get` returns the latest stored snapshot regardless of
which server it was fetched for.  The keyed `StaticStore`, in contrast,
keeps distinct servers' entries independent. -/
theorem realtimeStore_single_slot (A B : Int) (dA dB : RealtimeData)
    (s : RealtimeStore) (stat : StaticMap) (sA sB : List GStop) (hAB : A ≠ B) :
    (fetchAndStoreRTFeed B dB (fetchAndStoreRTFeed A dA s)).get = some dB ∧
    (setStatic (setStatic stat A sA) B sB) A = some sA := by
  constructor
  · rfl
  · unfold setStatic
    rw [if_neg hAB, if_pos rfl]

/-- Witness for C1 (amended) at servers 1 and 2. -/
theorem realtimeStore_single_slot_witness :
    (fetchAndStoreRTFeed 2 rtDataB (fetchAndStoreRTFeed 1 rtDataA ⟨none⟩)).get
        = some rtDataB ∧
    (setStatic (setStatic emptyStaticMap 1 []) 2 []) 1 = some [] :=
  realtimeStore_single_slot 1 2 rtDataA rtDataB ⟨none⟩ emptyStaticMap [] []
    (by decide)

/-! ### The per-target pipeline: `app.CollectMetricsForServer` -/

/-- The steps of the per-target pipeline, in source order. -/
inductive PStep where
  | serverPing
  | bundleExpiration
  | agenciesCoverage
  | obaApiMetrics
  | realtimeFetch
  | vehicleCountMatch
  | vehicleTelemetry
  | invalidAndOutOfBounds
deriving DecidableEq, Repr

/-- Whether each fallible step of the pipeline returns an error in a
given tick (`ServerPing` returns nothing). -/
structure StepErrors where
  bundleExpirationErr : Bool
  agenciesCoverageErr : Bool
  obaApiMetricsErr : Bool
  realtimeFetchErr : Bool
  vehicleCountMatchErr : Bool
  vehicleTelemetryErr : Bool
  invalidAndOOBErr : Bool
deriving DecidableEq, Repr

/-- Mirrors the control flow of `app.CollectMetricsForServer`, recording
the steps that execute: each step's error is only logged and reported,
except the GTFS-RT fetch, whose error returns from the function. -/
def CollectMetricsForServer (e : StepErrors) : List PStep :=
  let steps := [PStep.serverPing]
  let steps := steps ++ [PStep.bundleExpiration]
  let steps := steps ++ [PStep.agenciesCoverage]
  let steps := steps ++ [PStep.obaApiMetrics]
  let steps := steps ++ [PStep.realtimeFetch]
  if e.realtimeFetchErr then steps
  else
    let steps := steps ++ [PStep.vehicleCountMatch]
    let steps := steps ++ [PStep.vehicleTelemetry]
    steps ++ [PStep.invalidAndOutOfBounds]

/-- C4: every step up to and including the realtime fetch executes no
matter which steps error; when the realtime fetch succeeds the remaining
three steps execute even if they themselves error; when it fails none of
them run; and the set of executed steps depends only on the realtime
fetch's outcome, not on any other step's error. -/
theorem collectMetricsForServer_spec (e : StepErrors) :
    (PStep.serverPing ∈ CollectMetricsForServer e ∧
     PStep.bundleExpiration ∈ CollectMetricsForServer e ∧
     PStep.agenciesCoverage ∈ CollectMetricsForServer e ∧
     PStep.obaApiMetrics ∈ CollectMetricsForServer e ∧
     PStep.realtimeFetch ∈ CollectMetricsForServer e) ∧
    (e.realtimeFetchErr = false →
     PStep.vehicleCountMatch ∈ CollectMetricsForServer e ∧
     PStep.vehicleTelemetry ∈ CollectMetricsForServer e ∧
     PStep.invalidAndOutOfBounds ∈ CollectMetricsForServer e) ∧
    (e.realtimeFetchErr = true →
     PStep.vehicleCountMatch ∉ CollectMetricsForServer e ∧
     PStep.vehicleTelemetry ∉ CollectMetricsForServer e ∧
     PStep.invalidAndOutOfBounds ∉ CollectMetricsForServer e) ∧
    (∀ e2 : StepErrors, e2.realtimeFetchErr = e.realtimeFetchErr →
     CollectMetricsForServer e2 = CollectMetricsForServer e) := by
  refine ⟨?_, ?_, ?_, ?_⟩
  · unfold CollectMetricsForServer
    by_cases h : e.realtimeFetchErr <;> simp [h]
  · intro h
    unfold CollectMetricsForServer
    simp [h]
  · intro h
    unfold CollectMetricsForServer
    simp [h]
  · intro e2 h
    unfold CollectMetricsForServer
    rw [h]

/-- Witness for C4: a tick where every step except the realtime fetch
errors still runs the full pipeline. -/
theorem collectMetricsForServer_spec_witness :
    PStep.vehicleCountMatch ∈
        CollectMetricsForServer ⟨true, true, true, false, true, true, true⟩ ∧
    PStep.vehicleTelemetry ∈
        CollectMetricsForServer ⟨true, true, true, false, true, true, true⟩ ∧
    PStep.invalidAndOutOfBounds ∈
        CollectMetricsForServer ⟨true, true, true, false, true, true, true⟩ :=
  (collectMetricsForServer_spec ⟨true, true, true, false, true, true, true⟩).2.1 rfl

/-! ### Vehicle last-seen store: `internal/metrics/vehicle_store.go`
Times are rationals (seconds).  The two nested Go maps are association
lists; Go map keys are unique, which becomes a `Nodup` hypothesis. -/

/-- Mirrors `metrics.LastSeen`. -/
structure LastSeen where
  time : ℚ
  lat : ℚ
  lon : ℚ
deriving DecidableEq, Repr

/-- The `Store map[int]map[string]LastSeen` of `VehicleLastSeen`. -/
abbrev VehicleStore := List (Int × List (String × LastSeen))

def findServer : VehicleStore → Int → Option (List (String × LastSeen))
  | [], _ => none
  | (k, vs) :: rest, sid => if k = sid then some vs else findServer rest sid

def lookupVehicle : List (String × LastSeen) → String → Option LastSeen
  | [], _ => none
  | (k, ls) :: rest, vid => if k = vid then some ls else lookupVehicle rest vid

/-- Mirrors `VehicleLastSeen.Get`. -/
def vlsGet (st : VehicleStore) (sid : Int) (vid : String) : Option LastSeen :=
  match findServer st sid with
  | none => none
  | some vs => lookupVehicle vs vid

def setVehicle : List (String × LastSeen) → String → LastSeen → List (String × LastSeen)
  | [], vid, ls => [(vid, ls)]
  | (k, v) :: rest, vid, ls =>
      if k = vid then (vid, ls) :: rest else (k, v) :: setVehicle rest vid ls

/-- Mirrors `VehicleLastSeen.Set`: create the inner map when absent,
then store/replace the vehicle's record. -/
def setServer : VehicleStore → Int → String → LastSeen → VehicleStore
  | [], sid, vid, ls => [(sid, [(vid, ls)])]
  | (k, vs) :: rest, sid, vid, ls =>
      if k = sid then (k, setVehicle vs vid ls) :: rest
      else (k, vs) :: setServer rest sid vid ls

/-- Mirrors `VehicleLastSeen.Count`: `len(v.Store[serverID])`. -/
def vlsCount (st : VehicleStore) (sid : Int) : Nat :=
  ((findServer st sid).getD []).length

/-- The removal condition of `VehicleLastSeen.clear`:
`lastSeen.Time.Before(now) && now.Sub(lastSeen.Time) > threshold`. -/
def staleRecord (threshold now : ℚ) (ls : LastSeen) : Bool :=
  decide (ls.time < now) && decide (now - ls.time > threshold)

/-- Mirrors `VehicleLastSeen.clear`: for each server, remove the stale
vehicle records, then delete the per-server map if it was left empty.
The Go range loop over the outer map is modelled by structural
recursion; its early return on an empty store is semantically the nil
case. -/
def vlsClear (threshold now : ℚ) : VehicleStore → VehicleStore
  | [] => []
  | (k, vs) :: rest =>
      let kept := vs.filter (fun q => !staleRecord threshold now q.2)
      if kept.isEmpty then vlsClear threshold now rest
      else (k, kept) :: vlsClear threshold now rest

lemma findServer_cons (k : Int) (vs : List (String × LastSeen))
    (rest : VehicleStore) (sid : Int) :
    findServer ((k, vs) :: rest) sid
      = if k = sid then some vs else findServer rest sid := rfl

lemma vlsClear_cons (threshold now : ℚ) (k : Int)
    (vs : List (String × LastSeen)) (rest : VehicleStore) :
    vlsClear threshold now ((k, vs) :: rest)
      = if (vs.filter (fun q => !staleRecord threshold now q.2)).isEmpty
        then vlsClear threshold now rest
        else (k, vs.filter (fun q => !staleRecord threshold now q.2))
          :: vlsClear threshold now rest := rfl

lemma not_stale_eq_keep (threshold now : ℚ) (hthr : 0 ≤ threshold) (ls : LastSeen) :
    (!staleRecord threshold now ls) = decide (now - ls.time ≤ threshold) := by
  unfold staleRecord
  by_cases h : now - ls.time ≤ threshold
  · have h2 : ¬(now - ls.time > threshold) := not_lt.mpr h
    rw [decide_eq_true h, decide_eq_false h2]
    simp
  · push_neg at h
    have h2 : ls.time < now := by linarith
    rw [decide_eq_true h2, decide_eq_true h, decide_eq_false (not_le.mpr h)]
    rfl

lemma keepFilter_eq (threshold now : ℚ) (hthr : 0 ≤ threshold)
    (vs : List (String × LastSeen)) :
    vs.filter (fun q => !staleRecord threshold now q.2)
      = vs.filter (fun q => decide (now - q.2.time ≤ threshold)) :=
  List.filter_congr (fun q _ => not_stale_eq_keep threshold now hthr q.2)

lemma findServer_none_of_not_mem (st : VehicleStore) (sid : Int)
    (h : sid ∉ st.map Prod.fst) : findServer st sid = none := by
  induction st with
  | nil => rfl
  | cons p rest ih =>
    obtain ⟨k, vs⟩ := p
    unfold findServer
    rw [if_neg (by intro hk; exact h (by simp [hk])), ih (by intro hm; exact h (by simp [hm]))]

lemma clear_keys_subset (threshold now : ℚ) (st : VehicleStore) (sid : Int)
    (h : sid ∈ (vlsClear threshold now st).map Prod.fst) :
    sid ∈ st.map Prod.fst := by
  induction st with
  | nil => simpa [vlsClear] using h
  | cons p rest ih =>
    obtain ⟨k, vs⟩ := p
    rw [vlsClear_cons] at h
    by_cases hke : (vs.filter (fun q => !staleRecord threshold now q.2)).isEmpty = true
    · rw [if_pos hke] at h
      rw [List.map_cons]
      exact List.mem_cons.mpr (Or.inr (ih h))
    · rw [if_neg hke] at h
      rw [List.map_cons] at h ⊢
      rcases List.mem_cons.mp h with h1 | h2
      · exact List.mem_cons.mpr (Or.inl h1)
      · exact List.mem_cons.mpr (Or.inr (ih h2))

/-- C6: under a nonnegative threshold (thresholds are durations; the
deployed value is one hour) and unique map keys, a sweep retains exactly
the records within the threshold of the sweep time, drops per-server
maps left empty, and `Count` afterwards reports the retained records. -/
theorem vlsClear_spec (st : VehicleStore) (threshold now : ℚ) (sid : Int)
    (hthr : 0 ≤ threshold) (hkeys : (st.map Prod.fst).Nodup) :
    (findServer (vlsClear threshold now st) sid
      = (findServer st sid).bind (fun vs =>
          if (vs.filter (fun q => decide (now - q.2.time ≤ threshold))).isEmpty
          then none
          else some (vs.filter (fun q => decide (now - q.2.time ≤ threshold))))) ∧
    vlsCount (vlsClear threshold now st) sid
      = (((findServer st sid).getD []).filter
          (fun q => decide (now - q.2.time ≤ threshold))).length := by
  have hmain : findServer (vlsClear threshold now st) sid
      = (findServer st sid).bind (fun vs =>
          if (vs.filter (fun q => decide (now - q.2.time ≤ threshold))).isEmpty
          then none
          else some (vs.filter (fun q => decide (now - q.2.time ≤ threshold)))) := by
    induction st with
    | nil => rfl
    | cons p rest ih =>
      obtain ⟨k, vs⟩ := p
      rw [List.map_cons, List.nodup_cons] at hkeys
      obtain ⟨hk, hrest⟩ := hkeys
      have ihr := ih hrest
      rw [findServer_cons, vlsClear_cons]
      by_cases hke : (vs.filter (fun q => !staleRecord threshold now q.2)).isEmpty = true
      · rw [if_pos hke]
        by_cases hsid : k = sid
        · subst hsid
          have hnone : findServer (vlsClear threshold now rest) k = none := by
            apply findServer_none_of_not_mem
            intro hmem
            exact hk (clear_keys_subset threshold now rest k hmem)
          rw [hnone, if_pos rfl]
          have hkept : (vs.filter
              (fun q => decide (now - q.2.time ≤ threshold))).isEmpty = true := by
            rw [← keepFilter_eq threshold now hthr]
            exact hke
          simp only [Option.some_bind]
          rw [if_pos hkept]
        · rw [if_neg hsid]
          exact ihr
      · rw [if_neg hke, findServer_cons]
        by_cases hsid : k = sid
        · subst hsid
          rw [if_pos rfl, if_pos rfl]
          have hkept : ¬((vs.filter
              (fun q => decide (now - q.2.time ≤ threshold))).isEmpty = true) := by
            rw [← keepFilter_eq threshold now hthr]
            exact hke
          simp only [Option.some_bind]
          rw [if_neg hkept, keepFilter_eq threshold now hthr]
        · rw [if_neg hsid, if_neg hsid]
          exact ihr
  refine ⟨hmain, ?_⟩
  unfold vlsCount
  rw [hmain]
  cases hf : findServer st sid with
  | none => rfl
  | some vs =>
    simp only [Option.some_bind, Option.getD_some]
    by_cases hke : (vs.filter (fun q => decide (now - q.2.time ≤ threshold))).isEmpty = true
    · rw [if_pos hke]
      rw [List.isEmpty_iff] at hke
      rw [hke]
      rfl
    · rw [if_neg hke]
      rfl

/-- Witness for C6: a store with one stale and one fresh record; the
sweep keeps the fresh one and `Count` reports 1. -/
theorem vlsClear_spec_witness :
    findServer (vlsClear 3600 10000 [(1, [("V1", ⟨100, 0, 0⟩), ("V2", ⟨9000, 0, 0⟩)])]) 1
      = some [("V2", ⟨9000, 0, 0⟩)] ∧
    vlsCount (vlsClear 3600 10000 [(1, [("V1", ⟨100, 0, 0⟩), ("V2", ⟨9000, 0, 0⟩)])]) 1
      = 1 := by
  obtain ⟨h1, h2⟩ := vlsClear_spec
    [(1, [("V1", ⟨100, 0, 0⟩), ("V2", ⟨9000, 0, 0⟩)])] 3600 10000 1
    (by norm_num) (by simp)
  have hfs : findServer [(1, [("V1", (⟨100, 0, 0⟩ : LastSeen)), ("V2", ⟨9000, 0, 0⟩)])] 1
      = some [("V1", ⟨100, 0, 0⟩), ("V2", ⟨9000, 0, 0⟩)] := by
    rw [findServer_cons, if_pos rfl]
  have hfilter : ([("V1", (⟨100, 0, 0⟩ : LastSeen)), ("V2", ⟨9000, 0, 0⟩)]).filter
      (fun q => decide ((10000 : ℚ) - q.2.time ≤ 3600)) = [("V2", ⟨9000, 0, 0⟩)] := by
    norm_num [List.filter]
  constructor
  · rw [h1, hfs]
    simp only [Option.some_bind]
    rw [hfilter, if_neg (by simp)]
  · rw [h2, hfs]
    simp only [Option.getD_some]
    rw [hfilter]
    rfl

/-! ### Telemetry pass: `metrics.trackVehicleTelemetry` -/

/-- The Prometheus updates the telemetry pass performs, as events:
`VehicleReportCount.Inc`, `VehicleReportInterval.Set`,
`VehicleSpeedGauge.Set`, `VehicleSpeedDiscrepancyRatioGauge.Set` and
`TrackedVehiclesGauge.Set`. -/
inductive MetricEvent where
  | reportCountInc (vehicleID : String) (serverID : Int)
  | reportInterval (vehicleID : String) (serverID : Int) (seconds : ℚ)
  | computedSpeed (vehicleID : String) (agencyID : String) (serverID : Int) (speed : ℚ)
  | speedDiscrepancy (vehicleID : String) (agencyID : String) (serverID : Int) (ratio : ℚ)
  | trackedVehicles (serverID : Int) (count : Nat)
deriving DecidableEq, Repr

/-- Modelled from the spec: `geo.HaversineDistance` delegates to the
external S2 geometry library (great-circle distance scaled by the mean
Earth radius 6371000 m); the repository relies only on it being a
deterministic function of the two coordinate pairs. -/
def HaversineDistance (lat1 lon1 lat2 lon2 : ℚ) : ℚ :=
  6371000 * ((lat1 - lat2) ^ 2 + (lon1 - lon2) ^ 2)

/-- The loop body of `trackVehicleTelemetry` for one vehicle: skip
entries without a usable id or position; count the report and publish
the interval since the reported timestamp; when a prior record exists
with positive elapsed time publish the computed speed, and additionally
the relative discrepancy when the feed reports a positive speed; finally
store the new last-seen record. -/
def trackVehicleStep (serverID : Int) (agencyID : String) (now : ℚ)
    (acc : VehicleStore × List MetricEvent) (v : Vehicle) :
    VehicleStore × List MetricEvent :=
  match v.vid with
  | none => acc
  | some vehID =>
    if vehID.id = "" then acc
    else
      match v.position with
      | none => acc
      | some pos =>
        match pos.latitude, pos.longitude with
        | some la, some lo =>
          let seenAt := v.timestamp.getD now
          let evs := acc.2 ++ [MetricEvent.reportCountInc vehID.id serverID,
            MetricEvent.reportInterval vehID.id serverID (now - seenAt)]
          let evs2 :=
            match vlsGet acc.1 serverID vehID.id with
            | some prev =>
              let timeDelta := seenAt - prev.time
              if 0 < timeDelta then
                let speed := HaversineDistance prev.lat prev.lon la lo / timeDelta
                let evs3 := evs ++ [MetricEvent.computedSpeed vehID.id agencyID serverID speed]
                match pos.speed with
                | some reported =>
                  if 0 < reported then
                    evs3 ++ [MetricEvent.speedDiscrepancy vehID.id agencyID serverID
                      (|speed - reported| / reported)]
                  else evs3
                | none => evs3
              else evs
            | none => evs
          (setServer acc.1 serverID vehID.id ⟨seenAt, la, lo⟩, evs2)
        | _, _ => acc

/-- Mirrors `metrics.trackVehicleTelemetry`: error when no snapshot is
stored, a zero gauge for an empty feed, otherwise the per-vehicle loop
followed by the tracked-vehicles gauge from the store's count.  The
`Bool` is whether the function returned an error. -/
def trackVehicleTelemetry (serverID : Int) (agencyID : String) (now : ℚ)
    (rt : Option RealtimeData) (store : VehicleStore) :
    VehicleStore × List MetricEvent × Bool :=
  match rt with
  | none => (store, [], true)
  | some data =>
    if data.vehicles.isEmpty then (store, [MetricEvent.trackedVehicles serverID 0], false)
    else
      let res := data.vehicles.foldl (trackVehicleStep serverID agencyID now) (store, [])
      (res.1, res.2 ++ [MetricEvent.trackedVehicles serverID (vlsCount res.1 serverID)],
        false)

lemma trackVehicleTelemetry_some (serverID : Int) (agencyID : String) (now : ℚ)
    (data : RealtimeData) (store : VehicleStore) :
    trackVehicleTelemetry serverID agencyID now (some data) store
      = if data.vehicles.isEmpty
        then (store, [MetricEvent.trackedVehicles serverID 0], false)
        else
          ((data.vehicles.foldl (trackVehicleStep serverID agencyID now) (store, [])).1,
           (data.vehicles.foldl (trackVehicleStep serverID agencyID now) (store, [])).2
             ++ [MetricEvent.trackedVehicles serverID
                  (vlsCount (data.vehicles.foldl
                    (trackVehicleStep serverID agencyID now) (store, [])).1 serverID)],
           false) := rfl

lemma trackVehicleStep_shape (serverID : Int) (agencyID : String) (now : ℚ)
    (store : VehicleStore) (evs : List MetricEvent) (v : Vehicle) :
    ∃ tail, (trackVehicleStep serverID agencyID now (store, evs) v).2 = evs ++ tail := by
  unfold trackVehicleStep
  split
  · exact ⟨[], by simp⟩
  · split
    · exact ⟨[], by simp⟩
    · split
      · exact ⟨[], by simp⟩
      · split
        · simp only []
          split
          · split
            · split
              · split
                · exact ⟨_, by rw [List.append_assoc, List.append_assoc]⟩
                · exact ⟨_, by rw [List.append_assoc]⟩
              · exact ⟨_, by rw [List.append_assoc]⟩
            · exact ⟨_, rfl⟩
          · exact ⟨_, rfl⟩
        · exact ⟨[], by simp⟩

lemma foldSteps_shape (serverID : Int) (agencyID : String) (now : ℚ)
    (l : List Vehicle) (store : VehicleStore) (evs : List MetricEvent) :
    ∃ tail, (l.foldl (trackVehicleStep serverID agencyID now) (store, evs)).2
      = evs ++ tail := by
  induction l generalizing store evs with
  | nil => exact ⟨[], (List.append_nil evs).symm⟩
  | cons t rest ih =>
    rw [List.foldl_cons]
    obtain ⟨t1, ht1⟩ := trackVehicleStep_shape serverID agencyID now store evs t
    obtain ⟨t2, ht2⟩ := ih (trackVehicleStep serverID agencyID now (store, evs) t).1
      (trackVehicleStep serverID agencyID now (store, evs) t).2
    refine ⟨t1 ++ t2, ?_⟩
    rw [Prod.mk.eta] at ht2
    rw [ht2, ht1, List.append_assoc]

lemma trackVehicleStep_processed (serverID : Int) (agencyID : String) (now : ℚ)
    (store : VehicleStore) (evs : List MetricEvent) (v : Vehicle)
    (vehID : VehicleID) (pos : VehiclePosition) (la lo : ℚ)
    (hvid : v.vid = some vehID) (hid : ¬(vehID.id = "")) (hpos : v.position = some pos)
    (hla : pos.latitude = some la) (hlo : pos.longitude = some lo) :
    ∃ extra, (trackVehicleStep serverID agencyID now (store, evs) v).2
      = (evs ++ [MetricEvent.reportCountInc vehID.id serverID,
          MetricEvent.reportInterval vehID.id serverID (now - v.timestamp.getD now)])
        ++ extra := by
  unfold trackVehicleStep
  simp only [hvid, hpos, hla, hlo, if_neg hid]
  split
  · split
    · split
      · split
        · exact ⟨_, by rw [List.append_assoc]⟩
        · exact ⟨_, rfl⟩
      · exact ⟨_, rfl⟩
    · exact ⟨[], by simp⟩
  · exact ⟨[], by simp⟩

lemma trackVehicleStep_speed (serverID : Int) (agencyID : String) (now : ℚ)
    (store : VehicleStore) (evs : List MetricEvent) (v : Vehicle)
    (vehID : VehicleID) (pos : VehiclePosition) (la lo : ℚ) (prev : LastSeen)
    (hvid : v.vid = some vehID) (hid : ¬(vehID.id = "")) (hpos : v.position = some pos)
    (hla : pos.latitude = some la) (hlo : pos.longitude = some lo)
    (hprev : vlsGet store serverID vehID.id = some prev)
    (htd : 0 < v.timestamp.getD now - prev.time) :
    MetricEvent.computedSpeed vehID.id agencyID serverID
        (HaversineDistance prev.lat prev.lon la lo / (v.timestamp.getD now - prev.time))
      ∈ (trackVehicleStep serverID agencyID now (store, evs) v).2 ∧
    (∀ reported, pos.speed = some reported → 0 < reported →
      MetricEvent.speedDiscrepancy vehID.id agencyID serverID
          (|HaversineDistance prev.lat prev.lon la lo /
            (v.timestamp.getD now - prev.time) - reported| / reported)
        ∈ (trackVehicleStep serverID agencyID now (store, evs) v).2) := by
  unfold trackVehicleStep
  simp only [hvid, hpos, hla, hlo, if_neg hid, hprev]
  rw [if_pos htd]
  constructor
  · cases hsp : pos.speed with
    | none => simp
    | some reported =>
      by_cases hrp : 0 < reported
      · simp [hrp]
      · simp [hrp]
  · intro reported hsp hrp
    simp [hsp, hrp]

lemma foldSteps_counts (serverID : Int) (agencyID : String) (now : ℚ)
    (l : List Vehicle) :
    ∀ (store : VehicleStore) (evs : List MetricEvent) (v : Vehicle), v ∈ l →
    ∀ vehID pos la lo, v.vid = some vehID → ¬(vehID.id = "") →
      v.position = some pos → pos.latitude = some la → pos.longitude = some lo →
      MetricEvent.reportCountInc vehID.id serverID
        ∈ (l.foldl (trackVehicleStep serverID agencyID now) (store, evs)).2 ∧
      MetricEvent.reportInterval vehID.id serverID (now - v.timestamp.getD now)
        ∈ (l.foldl (trackVehicleStep serverID agencyID now) (store, evs)).2 := by
  induction l with
  | nil => intro _ _ v hv; cases hv
  | cons t rest ih =>
    intro store evs v hv vehID pos la lo hvid hid hpos hla hlo
    rw [List.foldl_cons]
    rcases List.mem_cons.mp hv with rfl | hv2
    · obtain ⟨extra, hx⟩ := trackVehicleStep_processed serverID agencyID now store evs
        v vehID pos la lo hvid hid hpos hla hlo
      obtain ⟨tail, htail⟩ := foldSteps_shape serverID agencyID now rest
        (trackVehicleStep serverID agencyID now (store, evs) v).1
        (trackVehicleStep serverID agencyID now (store, evs) v).2
      rw [Prod.mk.eta] at htail
      rw [htail, hx]
      constructor
      · simp
      · simp
    · have := ih (trackVehicleStep serverID agencyID now (store, evs) t).1
        (trackVehicleStep serverID agencyID now (store, evs) t).2 v hv2
        vehID pos la lo hvid hid hpos hla hlo
      rw [Prod.mk.eta] at this
      exact this

/-- C5 (amended): every vehicle in the stored snapshot with a non-empty
id and a position carrying both coordinates gets its report counter
incremented and its interval since the reported timestamp published; the
loop body for such a vehicle, when a prior record with positive elapsed
time exists, publishes the computed speed (haversine distance over
elapsed seconds) and, when the feed reports a positive speed, the
relative discrepancy `|computed - reported| / reported`. -/
theorem trackVehicleTelemetry_spec (serverID : Int) (agencyID : String) (now : ℚ) :
    (∀ (data : RealtimeData) (store : VehicleStore) (v : Vehicle),
      v ∈ data.vehicles →
      ∀ vehID pos la lo, v.vid = some vehID → ¬(vehID.id = "") →
        v.position = some pos → pos.latitude = some la → pos.longitude = some lo →
        MetricEvent.reportCountInc vehID.id serverID
          ∈ (trackVehicleTelemetry serverID agencyID now (some data) store).2.1 ∧
        MetricEvent.reportInterval vehID.id serverID (now - v.timestamp.getD now)
          ∈ (trackVehicleTelemetry serverID agencyID now (some data) store).2.1) ∧
    (∀ (store : VehicleStore) (evs : List MetricEvent) (v : Vehicle)
        (vehID : VehicleID) (pos : VehiclePosition) (la lo : ℚ) (prev : LastSeen),
      v.vid = some vehID → ¬(vehID.id = "") → v.position = some pos →
      pos.latitude = some la → pos.longitude = some lo →
      vlsGet store serverID vehID.id = some prev →
      0 < v.timestamp.getD now - prev.time →
      MetricEvent.computedSpeed vehID.id agencyID serverID
          (HaversineDistance prev.lat prev.lon la lo /
            (v.timestamp.getD now - prev.time))
        ∈ (trackVehicleStep serverID agencyID now (store, evs) v).2 ∧
      (∀ reported, pos.speed = some reported → 0 < reported →
        MetricEvent.speedDiscrepancy vehID.id agencyID serverID
            (|HaversineDistance prev.lat prev.lon la lo /
              (v.timestamp.getD now - prev.time) - reported| / reported)
          ∈ (trackVehicleStep serverID agencyID now (store, evs) v).2)) := by
  constructor
  · intro data store v hv vehID pos la lo hvid hid hpos hla hlo
    rw [trackVehicleTelemetry_some, if_neg (by
      rw [List.isEmpty_iff]
      intro h0
      rw [h0] at hv
      cases hv)]
    obtain ⟨hc, hi⟩ := foldSteps_counts serverID agencyID now data.vehicles store []
      v hv vehID pos la lo hvid hid hpos hla hlo
    exact ⟨List.mem_append_left _ hc, List.mem_append_left _ hi⟩
  · intro store evs v vehID pos la lo prev hvid hid hpos hla hlo hprev htd
    exact trackVehicleStep_speed serverID agencyID now store evs v vehID pos la lo
      prev hvid hid hpos hla hlo hprev htd

/-- A fully populated vehicle used by the C5 witness. -/
def vGood : Vehicle := ⟨some ⟨"V1"⟩, some ⟨some 3, some 4, some 5⟩, some 100, none⟩

/-- Witness for C5 (amended): a concrete snapshot and prior record; the
report counter is published by the pass, and the loop body publishes the
computed speed from the prior record. -/
theorem trackVehicleTelemetry_spec_witness :
    MetricEvent.reportCountInc "V1" 1
      ∈ (trackVehicleTelemetry 1 "A" 100 (some ⟨[vGood]⟩) []).2.1 ∧
    MetricEvent.computedSpeed "V1" "A" 1 (HaversineDistance 0 0 3 4 / (100 - 90))
      ∈ (trackVehicleStep 1 "A" 100 ([(1, [("V1", ⟨90, 0, 0⟩)])], []) vGood).2 := by
  constructor
  · exact ((trackVehicleTelemetry_spec 1 "A" 100).1 ⟨[vGood]⟩ [] vGood
      (List.mem_singleton.mpr rfl) ⟨"V1"⟩ ⟨some 3, some 4, some 5⟩ 3 4
      rfl (by decide) rfl rfl rfl).1
  · exact ((trackVehicleTelemetry_spec 1 "A" 100).2 [(1, [("V1", ⟨90, 0, 0⟩)])] []
      vGood ⟨"V1"⟩ ⟨some 3, some 4, some 5⟩ 3 4 ⟨90, 0, 0⟩
      rfl (by decide) rfl rfl rfl rfl (by norm_num [vGood])).1

/-- Counterexample to C5 as stated: a vehicle present in the snapshot
with a valid id "V1" but no position is skipped entirely, so its update
counter is never incremented. -/
theorem trackVehicleTelemetry_claim_counterexample :
    (⟨some ⟨"V1"⟩, none, none, none⟩ : Vehicle) ∈ rtDataB.vehicles ∧
    MetricEvent.reportCountInc "V1" 1
      ∉ (trackVehicleTelemetry 1 "A" 0 (some rtDataB) []).2.1 := by
  constructor
  · exact List.mem_singleton.mpr rfl
  · intro h
    have : (trackVehicleTelemetry 1 "A" 0 (some rtDataB) []).2.1
        = [MetricEvent.trackedVehicles 1 0] := rfl
    rw [this] at h
    rcases List.mem_singleton.mp h with h2
    cases h2

end Watchdog
